import Mathlib

/-!
Shallow embedding of the CodeSync relay server (the socket.io event handlers
of the server entry file): the presence registry `userSocketMap`, the
transport-level room membership driven by `socket.join` / `socket.leave`,
and each event handler as a case of one step function `handle` returning
the successor state together with the list of emissions it performs.

Transport semantics modelled: `io.to(x).emit` delivers to the socket `x`;
`socket.broadcast.to(room).emit` delivers to every socket joined to `room`
except the sender; `socket.broadcast.to(sid).emit` with a socket id as the
target (socket.io places each socket in an implicit room named by its own
id) delivers to the socket `sid` unless it is the sender.  Socket-id and
room-id namespaces are treated as disjoint.
-/

namespace CodeSync

/-- `USER_CONNECTION_STATUS` from the server's user types. -/
inductive UserStatus where
  | online
  | offline
deriving DecidableEq, Repr

/-- The `User` record stored in `userSocketMap`, fields as in the source. -/
structure User where
  username : String
  roomId : String
  status : UserStatus
  cursorPosition : Nat
  typing : Bool
  socketId : String
  currentFile : Option String
deriving DecidableEq, Repr

/-- Server state: the registry `userSocketMap` plus the transport-level
room membership (pairs `(socketId, roomId)` created by `socket.join`). -/
structure ServerState where
  userSocketMap : List User
  joined : List (String × String)
deriving DecidableEq, Repr

/-- `getUsersInRoom` from the source: all registry records with this room id. -/
def getUsersInRoom (m : List User) (roomId : String) : List User :=
  m.filter (fun u => u.roomId == roomId)

/-- `getRoomId` from the source: room of the first record with this socket id
(`null` when absent). -/
def getRoomId (m : List User) (socketId : String) : Option String :=
  match m.find? (fun u => u.socketId == socketId) with
  | none => none
  | some u => some u.roomId

/-- `getUserBySocketId` from the source: first record with this socket id. -/
def getUserBySocketId (m : List User) (socketId : String) : Option User :=
  m.find? (fun u => u.socketId == socketId)

/-- `socket.join(room)`: a no-op when already joined, else appended. -/
def joinRoom (j : List (String × String)) (sid room : String) :
    List (String × String) :=
  if j.any (fun p => p.1 == sid && p.2 == room) then j else j ++ [(sid, room)]

/-- `socket.leave(room)`. -/
def leaveRoom (j : List (String × String)) (sid room : String) :
    List (String × String) :=
  j.filter (fun p => !(p.1 == sid && p.2 == room))

/-- Recipients of `socket.broadcast.to(room).emit`: every socket joined to
`room` except the sender, in join order. -/
def broadcastTo (s : ServerState) (sender room : String) : List String :=
  (s.joined.filter (fun p => p.2 == room && p.1 != sender)).map Prod.fst

/-- Recipients of `socket.broadcast.to(sid).emit` where the target is a
socket id: the target socket unless it is the sender itself. -/
def broadcastToSocket (sender target : String) : List String :=
  if target == sender then [] else [target]

/-- Inbound events, one constructor per handler registered on a socket.
The three signaling payloads carry an optional `socketId` field the client
may have set; the handler's destructuring never reads it. -/
inductive InEvent where
  | joinRequest (roomId username : String)
  | disconnecting
  | signalIceCandidate (candidate roomId : String) (claimedSocketId : Option String)
  | signalOffer (offer roomId : String) (claimedSocketId : Option String)
  | signalAnswer (answer roomId : String) (claimedSocketId : Option String)
  | syncFileStructure (fileStructure openFiles activeFile : String)
  | directoryCreated (parentDirId newDirectory : String)
  | directoryUpdated (dirId children : String)
  | directoryRenamed (dirId newName : String)
  | directoryDeleted (dirId : String)
  | fileCreated (parentDirId newFile : String)
  | fileUpdated (fileId newContent : String)
  | fileRenamed (fileId newName : String)
  | fileDeleted (fileId : String)
  | userOffline (socketId : String)
  | userOnline (socketId : String)
  | sendMessage (message : String)
  | typingStart (cursorPosition : Nat)
  | typingPause
  | requestDrawing
  | syncDrawing (drawingData socketId : String)
deriving DecidableEq, Repr

/-- Outbound events, with the payloads the handlers construct. -/
inductive OutEvent where
  | usernameExists
  | userJoined (user : User)
  | joinAccepted (user : User) (users : List User)
  | userDisconnected (user : User)
  | signalIceCandidate (candidate socketId : String)
  | signalOffer (offer socketId : String)
  | signalAnswer (answer socketId : String)
  | syncFileStructure (fileStructure openFiles activeFile : String)
  | directoryCreated (parentDirId newDirectory : String)
  | directoryUpdated (dirId children : String)
  | directoryRenamed (dirId newName : String)
  | directoryDeleted (dirId : String)
  | fileCreated (parentDirId newFile : String)
  | fileUpdated (fileId newContent : String)
  | fileRenamed (fileId newName : String)
  | fileDeleted (fileId : String)
  | userOffline (socketId : String)
  | userOnline (socketId : String)
  | receiveMessage (message : String)
  | typingStart (user : User)
  | typingPause (user : User)
  | requestDrawing (socketId : String)
  | syncDrawing (drawingData : String)
deriving DecidableEq, Repr

/-- One `emit`: the list of recipient sockets and the event sent to each. -/
structure Emission where
  recipients : List String
  event : OutEvent
deriving DecidableEq, Repr

/-- The whole relay: one inbound event from `sender`, handled to completion,
yielding the successor state and the emissions, transcribed handler by
handler from the source file. -/
def handle (s : ServerState) (sender : String) : InEvent → ServerState × List Emission
  | .joinRequest roomId username =>
    let isUsernameExist :=
      (getUsersInRoom s.userSocketMap roomId).any (fun u => u.username == username)
    if isUsernameExist then
      (s, [{ recipients := [sender], event := .usernameExists }])
    else
      let newUser : User :=
        { username := username, roomId := roomId, status := .online,
          cursorPosition := 0, typing := false, socketId := sender,
          currentFile := none }
      let s' : ServerState :=
        { userSocketMap := s.userSocketMap ++ [newUser],
          joined := joinRoom s.joined sender roomId }
      let users := getUsersInRoom s'.userSocketMap roomId
      (s', [{ recipients := broadcastTo s' sender roomId, event := .userJoined newUser },
            { recipients := [sender], event := .joinAccepted newUser users }])
  | .disconnecting =>
    match getUserBySocketId s.userSocketMap sender with
    | none => (s, [])
    | some user =>
      let roomId := user.roomId
      let ems := [{ recipients := broadcastTo s sender roomId,
                    event := OutEvent.userDisconnected user }]
      let s' : ServerState :=
        { userSocketMap := s.userSocketMap.filter (fun u => u.socketId != sender),
          joined := leaveRoom s.joined sender roomId }
      (s', ems)
  | .signalIceCandidate candidate roomId _ =>
    (s, [{ recipients := broadcastTo s sender roomId,
           event := .signalIceCandidate candidate sender }])
  | .signalOffer offer roomId _ =>
    (s, [{ recipients := broadcastTo s sender roomId,
           event := .signalOffer offer sender }])
  | .signalAnswer answer roomId _ =>
    (s, [{ recipients := broadcastTo s sender roomId,
           event := .signalAnswer answer sender }])
  | .syncFileStructure fileStructure openFiles activeFile =>
    (s, [{ recipients := [sender],
           event := .syncFileStructure fileStructure openFiles activeFile }])
  | .directoryCreated parentDirId newDirectory =>
    match getRoomId s.userSocketMap sender with
    | none => (s, [])
    | some roomId =>
      (s, [{ recipients := broadcastTo s sender roomId,
             event := .directoryCreated parentDirId newDirectory }])
  | .directoryUpdated dirId children =>
    match getRoomId s.userSocketMap sender with
    | none => (s, [])
    | some roomId =>
      (s, [{ recipients := broadcastTo s sender roomId,
             event := .directoryUpdated dirId children }])
  | .directoryRenamed dirId newName =>
    match getRoomId s.userSocketMap sender with
    | none => (s, [])
    | some roomId =>
      (s, [{ recipients := broadcastTo s sender roomId,
             event := .directoryRenamed dirId newName }])
  | .directoryDeleted dirId =>
    match getRoomId s.userSocketMap sender with
    | none => (s, [])
    | some roomId =>
      (s, [{ recipients := broadcastTo s sender roomId,
             event := .directoryDeleted dirId }])
  | .fileCreated parentDirId newFile =>
    match getRoomId s.userSocketMap sender with
    | none => (s, [])
    | some roomId =>
      (s, [{ recipients := broadcastTo s sender roomId,
             event := .fileCreated parentDirId newFile }])
  | .fileUpdated fileId newContent =>
    match getRoomId s.userSocketMap sender with
    | none => (s, [])
    | some roomId =>
      (s, [{ recipients := broadcastTo s sender roomId,
             event := .fileUpdated fileId newContent }])
  | .fileRenamed fileId newName =>
    match getRoomId s.userSocketMap sender with
    | none => (s, [])
    | some roomId =>
      (s, [{ recipients := broadcastTo s sender roomId,
             event := .fileRenamed fileId newName }])
  | .fileDeleted fileId =>
    match getRoomId s.userSocketMap sender with
    | none => (s, [])
    | some roomId =>
      (s, [{ recipients := broadcastTo s sender roomId,
             event := .fileDeleted fileId }])
  | .userOffline socketId =>
    let m := s.userSocketMap.map (fun u =>
      if u.socketId == socketId then { u with status := UserStatus.offline } else u)
    let s' : ServerState := { s with userSocketMap := m }
    match getRoomId m socketId with
    | none => (s', [])
    | some roomId =>
      (s', [{ recipients := broadcastTo s' sender roomId,
              event := .userOffline socketId }])
  | .userOnline socketId =>
    let m := s.userSocketMap.map (fun u =>
      if u.socketId == socketId then { u with status := UserStatus.online } else u)
    let s' : ServerState := { s with userSocketMap := m }
    match getRoomId m socketId with
    | none => (s', [])
    | some roomId =>
      (s', [{ recipients := broadcastTo s' sender roomId,
              event := .userOnline socketId }])
  | .sendMessage message =>
    match getRoomId s.userSocketMap sender with
    | none => (s, [])
    | some roomId =>
      (s, [{ recipients := broadcastTo s sender roomId,
             event := .receiveMessage message }])
  | .typingStart cursorPosition =>
    let m := s.userSocketMap.map (fun u =>
      if u.socketId == sender then
        { u with typing := true, cursorPosition := cursorPosition }
      else u)
    let s' : ServerState := { s with userSocketMap := m }
    match getUserBySocketId m sender with
    | none => (s', [])
    | some user =>
      (s', [{ recipients := broadcastTo s' sender user.roomId,
              event := .typingStart user }])
  | .typingPause =>
    let m := s.userSocketMap.map (fun u =>
      if u.socketId == sender then { u with typing := false } else u)
    let s' : ServerState := { s with userSocketMap := m }
    match getUserBySocketId m sender with
    | none => (s', [])
    | some user =>
      (s', [{ recipients := broadcastTo s' sender user.roomId,
              event := .typingPause user }])
  | .requestDrawing =>
    match getRoomId s.userSocketMap sender with
    | none => (s, [])
    | some roomId =>
      (s, [{ recipients := broadcastTo s sender roomId,
             event := .requestDrawing sender }])
  | .syncDrawing drawingData socketId =>
    (s, [{ recipients := broadcastToSocket sender socketId,
           event := .syncDrawing drawingData }])

/-- Fold a trace of `(sender, event)` pairs through the relay. -/
def steps (s : ServerState) : List (String × InEvent) → ServerState
  | [] => s
  | (c, e) :: rest => steps (handle s c e).1 rest

/-- The state at server start: empty registry, no joined rooms. -/
def initialState : ServerState := { userSocketMap := [], joined := [] }

/-- The record the `JOIN_REQUEST` handler constructs on admission. -/
def newUserRec (c r un : String) : User :=
  { username := un, roomId := r, status := .online, cursorPosition := 0,
    typing := false, socketId := c, currentFile := none }

/-! ### Sample states used by concrete witnesses -/

/-- Sample participant `A` of room `r`. -/
def sampleA : User := newUserRec "a" "r" "ua"

/-- Sample participant `B` of room `r`. -/
def sampleB : User := newUserRec "b" "r" "ub"

/-- Sample participant `C` of room `r`. -/
def sampleC : User := newUserRec "c" "r" "uc"

/-- Room `r` holding exactly `A` then `B`, as after their two joins. -/
def sampleStateAB : ServerState :=
  { userSocketMap := [sampleA, sampleB], joined := [("a", "r"), ("b", "r")] }

/-- Room `r` holding `A`, `B`, `C` in admission order. -/
def sampleStateABC : ServerState :=
  { userSocketMap := [sampleA, sampleB, sampleC],
    joined := [("a", "r"), ("b", "r"), ("c", "r")] }

/-- A room whose single participant `alice` is OFFLINE. -/
def offlineAliceState : ServerState :=
  { userSocketMap :=
      [{ username := "alice", roomId := "r", status := .offline,
         cursorPosition := 0, typing := false, socketId := "s1",
         currentFile := none }],
    joined := [("s1", "r")] }

/-! ### Helper lemmas -/

/-- A sender is never a recipient of its own `socket.broadcast.to(room)`. -/
theorem self_not_mem_broadcastTo (s : ServerState) (c r : String) :
    c ∉ broadcastTo s c r := by
  intro h
  simp only [broadcastTo, List.mem_map, List.mem_filter,
    Bool.and_eq_true, bne_iff_ne, ne_eq, beq_iff_eq] at h
  obtain ⟨p, ⟨_, _, hp⟩, rfl⟩ := h
  exact hp rfl

/-- A sender is never a recipient of its own `socket.broadcast.to(sid)`. -/
theorem self_not_mem_broadcastToSocket (c sid : String) :
    c ∉ broadcastToSocket c sid := by
  unfold broadcastToSocket
  split
  · simp
  · rename_i h
    simp only [List.mem_singleton]
    intro hc
    subst hc
    simp at h

/-- The collision test of the JOIN_REQUEST handler, as a proposition: some
participant of the room (of any status) already carries the username. -/
theorem joinRequest_exists_username_iff (m : List User) (r un : String) :
    ((getUsersInRoom m r).any (fun u => u.username == un) = true) ↔
      ∃ u ∈ getUsersInRoom m r, u.username = un := by
  simp [List.any_eq_true]

/-- The reject branch of the JOIN_REQUEST handler. -/
theorem joinRequest_reject_eq (s : ServerState) (c r un : String)
    (hex : (getUsersInRoom s.userSocketMap r).any
      (fun u => u.username == un) = true) :
    handle s c (.joinRequest r un) =
      (s, [{ recipients := [c], event := .usernameExists }]) := by
  simp only [handle, hex, if_pos]

/-- The admit branch of the JOIN_REQUEST handler. -/
theorem joinRequest_admit_eq (s : ServerState) (c r un : String)
    (hex : (getUsersInRoom s.userSocketMap r).any
      (fun u => u.username == un) = false) :
    handle s c (.joinRequest r un) =
      ({ userSocketMap := s.userSocketMap ++ [newUserRec c r un],
         joined := joinRoom s.joined c r },
       [{ recipients := broadcastTo
            { userSocketMap := s.userSocketMap ++ [newUserRec c r un],
              joined := joinRoom s.joined c r } c r,
          event := .userJoined (newUserRec c r un) },
        { recipients := [c],
          event := .joinAccepted (newUserRec c r un)
            (getUsersInRoom (s.userSocketMap ++ [newUserRec c r un]) r) }]) := by
  have hcond : ¬ ((getUsersInRoom s.userSocketMap r).any
      (fun u => u.username == un) = true) := by
    simp [hex]
  simp only [handle]
  rw [if_neg hcond]
  rfl

/-- Pulling the sender-exclusion out of the room filter. -/
theorem filter_room_pairs_split (l : List (String × String)) (r c : String) :
    l.filter (fun p => p.2 == r && p.1 != c) =
      (l.filter (fun p => p.2 == r)).filter (fun p => p.1 != c) := by
  rw [List.filter_filter]
  exact List.filter_congr (fun a _ => by rw [Bool.and_comm])

/-! ### C3: rejection is atomic and reported only to the requester -/

/-- C3: when a join request collides with an existing username in the room,
the relay emits exactly one USERNAME_EXISTS notice, addressed to the
requesting connection only, with no broadcast, and the whole server state
(registry records, their order, and room memberships) is unchanged. -/
theorem joinRequest_collision_rejected_atomically
    (s : ServerState) (c roomId username : String)
    (h : ∃ u ∈ getUsersInRoom s.userSocketMap roomId, u.username = username) :
    handle s c (.joinRequest roomId username) =
      (s, [{ recipients := [c], event := .usernameExists }]) :=
  joinRequest_reject_eq s c roomId username
    ((joinRequest_exists_username_iff s.userSocketMap roomId username).mpr h)

/-- Witness for C3 at a concrete collision. -/
theorem joinRequest_collision_rejected_atomically_witness :
    (∃ u ∈ getUsersInRoom sampleStateAB.userSocketMap "r", u.username = "ua") ∧
    handle sampleStateAB "z" (.joinRequest "r" "ua") =
      (sampleStateAB, [{ recipients := ["z"], event := .usernameExists }]) :=
  ⟨by decide,
   joinRequest_collision_rejected_atomically sampleStateAB "z" "r" "ua" (by decide)⟩

/-! ### C5: SDP answers are room broadcasts, not unicasts -/

/-- C5 counterexample: the inbound answer payload names a room, not a target
connection, and with a registered sender in a three-member room the single
emitted SIGNAL_ANSWER event reaches two recipients — not a unicast to
exactly one target connection. -/
theorem signalAnswer_not_unicast_counterexample :
    (getUserBySocketId sampleStateABC.userSocketMap "c").isSome = true ∧
    (handle sampleStateABC "c" (.signalAnswer "sdp" "r" none)).2 =
      [{ recipients := ["a", "b"], event := .signalAnswer "sdp" "c" }] ∧
    (["a", "b"] : List String).length ≠ 1 := by
  refine ⟨by decide, by decide, by decide⟩

/-- C5 amended: for every inbound SDP answer event, the relay broadcasts the
answer to all members of the roomId named in the payload except the sender,
tagged with the sender's connectionId; the sender itself never receives it,
the registry is untouched, and no registration check is performed. -/
theorem signalAnswer_broadcast_amended (s : ServerState)
    (c ans r : String) (claimed : Option String) :
    handle s c (.signalAnswer ans r claimed) =
      (s, [{ recipients := broadcastTo s c r, event := .signalAnswer ans c }]) ∧
    c ∉ broadcastTo s c r :=
  ⟨rfl, self_not_mem_broadcastTo s c r⟩

/-! ### C6: departure notice precedes removal; unknown disconnect is a no-op -/

/-- C6: on a transport-level disconnect of a connection with a registry
record, the departure notice carries the full pre-removal record (username
and roomId included) and goes to the other members of that record's room,
computed on the pre-removal state; the record is absent from the registry
afterwards. If the connection has no record, nothing is emitted and the
state is unchanged. -/
theorem disconnect_notice_before_removal (s : ServerState) (c : String) :
    (∀ user, getUserBySocketId s.userSocketMap c = some user →
      handle s c .disconnecting =
        ({ userSocketMap := s.userSocketMap.filter (fun u => u.socketId != c),
           joined := leaveRoom s.joined c user.roomId },
         [{ recipients := broadcastTo s c user.roomId,
            event := .userDisconnected user }]) ∧
      user ∉ (handle s c .disconnecting).1.userSocketMap ∧
      c ∉ broadcastTo s c user.roomId) ∧
    (getUserBySocketId s.userSocketMap c = none →
      handle s c .disconnecting = (s, [])) := by
  constructor
  · intro user h
    have hsid : (user.socketId == c) = true := by
      have h' : s.userSocketMap.find? (fun u => u.socketId == c) = some user := h
      have h2 := List.find?_some h'
      exact h2
    refine ⟨by simp only [handle, h], ?_, self_not_mem_broadcastTo s c user.roomId⟩
    simp only [handle, h, List.mem_filter]
    intro hmem
    rw [bne_iff_ne] at hmem
    exact hmem.2 (by simpa using hsid)
  · intro h
    simp only [handle, h]

/-- Witness for C6 at a concrete disconnect of a registered connection. -/
theorem disconnect_notice_before_removal_witness :
    (getUserBySocketId sampleStateAB.userSocketMap "a" = some sampleA) ∧
    (handle sampleStateAB "a" .disconnecting =
      ({ userSocketMap :=
           sampleStateAB.userSocketMap.filter (fun u => u.socketId != "a"),
         joined := leaveRoom sampleStateAB.joined "a" sampleA.roomId },
       [{ recipients := broadcastTo sampleStateAB "a" sampleA.roomId,
          event := .userDisconnected sampleA }]) ∧
      sampleA ∉ (handle sampleStateAB "a" .disconnecting).1.userSocketMap ∧
      "a" ∉ broadcastTo sampleStateAB "a" sampleA.roomId) :=
  ⟨by decide,
   (disconnect_notice_before_removal sampleStateAB "a").1 sampleA (by decide)⟩

/-! ### C10: signaling tags cannot be spoofed and need no registration -/

/-- C10: for SDP offers, SDP answers and ICE candidates, the relayed event
is tagged with the actual sending connection's id; two inbound payloads
differing only in a sender-supplied socketId field produce identical output,
and the emissions do not depend on the registry at all (the sender need not
have any record): the relay always broadcasts to the roomId named in the
payload. -/
theorem signal_tag_no_spoof (s : ServerState) (c data r : String)
    (t1 t2 : Option String) :
    (handle s c (.signalOffer data r t1) = handle s c (.signalOffer data r t2) ∧
     handle s c (.signalOffer data r t1) =
       (s, [{ recipients := broadcastTo s c r, event := .signalOffer data c }]) ∧
     (handle { userSocketMap := [], joined := s.joined } c
         (.signalOffer data r t1)).2 = (handle s c (.signalOffer data r t1)).2) ∧
    (handle s c (.signalAnswer data r t1) = handle s c (.signalAnswer data r t2) ∧
     handle s c (.signalAnswer data r t1) =
       (s, [{ recipients := broadcastTo s c r, event := .signalAnswer data c }]) ∧
     (handle { userSocketMap := [], joined := s.joined } c
         (.signalAnswer data r t1)).2 = (handle s c (.signalAnswer data r t1)).2) ∧
    (handle s c (.signalIceCandidate data r t1) =
       handle s c (.signalIceCandidate data r t2) ∧
     handle s c (.signalIceCandidate data r t1) =
       (s, [{ recipients := broadcastTo s c r,
              event := .signalIceCandidate data c }]) ∧
     (handle { userSocketMap := [], joined := s.joined } c
         (.signalIceCandidate data r t1)).2 =
       (handle s c (.signalIceCandidate data r t1)).2) :=
  ⟨⟨rfl, rfl, rfl⟩, ⟨rfl, rfl, rfl⟩, ⟨rfl, rfl, rfl⟩⟩

/-! ### C1: roster sent to a newly joined participant -/

/-- C1 counterexample: with room `r` holding exactly `A` then `B`, the
JOIN_ACCEPTED sent to the newly joined `C` carries the roster
`[A, B, C]` — the claim's roster `[A, B]` (without `C`) is not what is
emitted. -/
theorem join_roster_counterexample :
    (handle sampleStateAB "c" (.joinRequest "r" "uc")).2.map Emission.event ≠
      [OutEvent.userJoined sampleC, OutEvent.joinAccepted sampleC [sampleA, sampleB]] ∧
    (handle sampleStateAB "c" (.joinRequest "r" "uc")).2.map Emission.event =
      [OutEvent.userJoined sampleC,
       OutEvent.joinAccepted sampleC [sampleA, sampleB, sampleC]] := by
  refine ⟨by decide, by decide⟩

/-- C1 amended: if room `r` contains exactly the participants `A` and `B`
(admitted in that order, and exactly their two sockets joined to the room)
and connection `c` sends a join request with a fresh username, the relay
emits exactly one USER_JOINED carrying `c`'s new record, with recipient
list exactly `[A, B]`, and exactly one JOIN_ACCEPTED to `c` whose
participant field is `c`'s record and whose roster is the ordered sequence
`[A, B, newUserRec c r un]` — the roster includes the newcomer itself. -/
theorem join_roster_amended (s : ServerState) (A B : User) (c r un : String)
    (hroom : getUsersInRoom s.userSocketMap r = [A, B])
    (hjoined : s.joined.filter (fun p => p.2 == r) =
      [(A.socketId, r), (B.socketId, r)])
    (hA : A.socketId ≠ c) (hB : B.socketId ≠ c)
    (hunA : A.username ≠ un) (hunB : B.username ≠ un) :
    handle s c (.joinRequest r un) =
      ({ userSocketMap := s.userSocketMap ++ [newUserRec c r un],
         joined := s.joined ++ [(c, r)] },
       [{ recipients := [A.socketId, B.socketId],
          event := .userJoined (newUserRec c r un) },
        { recipients := [c],
          event := .joinAccepted (newUserRec c r un)
            [A, B, newUserRec c r un] }]) := by
  have hex : (getUsersInRoom s.userSocketMap r).any
      (fun u => u.username == un) = false := by
    rw [hroom]
    simp [hunA, hunB]
  have hnotin : s.joined.any (fun p => p.1 == c && p.2 == r) = false := by
    by_contra hcon
    rw [Bool.not_eq_false, List.any_eq_true] at hcon
    obtain ⟨p, hp, hpc⟩ := hcon
    simp only [Bool.and_eq_true, beq_iff_eq] at hpc
    have hpf : p ∈ s.joined.filter (fun p => p.2 == r) := by
      rw [List.mem_filter]
      exact ⟨hp, by simp [hpc.2]⟩
    rw [hjoined] at hpf
    simp only [List.mem_cons, List.mem_singleton, List.not_mem_nil] at hpf
    rcases hpf with h1 | h1 | h1
    · exact hA (by rw [← hpc.1, h1])
    · exact hB (by rw [← hpc.1, h1])
    · exact h1
  have hjr : joinRoom s.joined c r = s.joined ++ [(c, r)] := by
    unfold joinRoom
    rw [if_neg (by simp [hnotin])]
  have husers : getUsersInRoom (s.userSocketMap ++ [newUserRec c r un]) r =
      [A, B, newUserRec c r un] := by
    unfold getUsersInRoom at hroom ⊢
    rw [List.filter_append, hroom]
    simp [newUserRec]
  have hbro : broadcastTo
      { userSocketMap := s.userSocketMap ++ [newUserRec c r un],
        joined := joinRoom s.joined c r } c r = [A.socketId, B.socketId] := by
    unfold broadcastTo
    rw [hjr]
    show ((s.joined ++ [(c, r)]).filter
      (fun p => p.2 == r && p.1 != c)).map Prod.fst = _
    rw [List.filter_append, filter_room_pairs_split, hjoined]
    have hfA : ((A.socketId, r).1 != c) = true := by simp [hA]
    have hfB : ((B.socketId, r).1 != c) = true := by simp [hB]
    simp only [List.filter_cons, hfA, hfB, if_pos, List.filter_nil]
    simp
  rw [joinRequest_admit_eq s c r un hex, husers, hbro, hjr]

/-- Witness for the amended C1 at the concrete two-member room. -/
theorem join_roster_amended_witness :
    (getUsersInRoom sampleStateAB.userSocketMap "r" = [sampleA, sampleB]) ∧
    (sampleStateAB.joined.filter (fun p => p.2 == "r") =
      [(sampleA.socketId, "r"), (sampleB.socketId, "r")]) ∧
    handle sampleStateAB "c" (.joinRequest "r" "uc") =
      ({ userSocketMap := sampleStateAB.userSocketMap ++ [newUserRec "c" "r" "uc"],
         joined := sampleStateAB.joined ++ [("c", "r")] },
       [{ recipients := [sampleA.socketId, sampleB.socketId],
          event := .userJoined (newUserRec "c" "r" "uc") },
        { recipients := ["c"],
          event := .joinAccepted (newUserRec "c" "r" "uc")
            [sampleA, sampleB, newUserRec "c" "r" "uc"] }]) :=
  ⟨by decide, by decide,
   join_roster_amended sampleStateAB sampleA sampleB "c" "r" "uc"
     (by decide) (by decide) (by decide) (by decide) (by decide) (by decide)⟩

/-! ### C2: the collision test ignores the ONLINE status -/

/-- C2 counterexample: room `r` contains a single OFFLINE participant named
`alice` (so no ONLINE participant carries that username), yet the join
request for `alice` is rejected with USERNAME_EXISTS and nothing is
admitted — the handler's collision test never consults the status field. -/
theorem join_collision_ignores_status_counterexample :
    (∀ u ∈ getUsersInRoom offlineAliceState.userSocketMap "r",
      ¬(u.status = UserStatus.online ∧ u.username = "alice")) ∧
    handle offlineAliceState "s2" (.joinRequest "r" "alice") =
      (offlineAliceState,
       [{ recipients := ["s2"], event := .usernameExists }]) := by
  refine ⟨by decide, by decide⟩

/-- C2 amended: a join request for `(r, un)` is rejected with exactly one
USERNAME_EXISTS notice to the requester (and the state unchanged) if and
only if some participant of `r` of ANY status already carries `un`; when no
participant of `r` carries `un`, the request is admitted and the appended
record has status ONLINE, cursorPosition 0, typing false and currentFile
unset. -/
theorem join_collision_any_status_amended (s : ServerState) (c r un : String) :
    (handle s c (.joinRequest r un) =
        (s, [{ recipients := [c], event := .usernameExists }]) ↔
      ∃ u ∈ getUsersInRoom s.userSocketMap r, u.username = un) ∧
    ((¬ ∃ u ∈ getUsersInRoom s.userSocketMap r, u.username = un) →
      (handle s c (.joinRequest r un)).1.userSocketMap =
        s.userSocketMap ++ [newUserRec c r un]) := by
  by_cases hex : (getUsersInRoom s.userSocketMap r).any
      (fun u => u.username == un) = true
  · have hcoll := (joinRequest_exists_username_iff s.userSocketMap r un).mp hex
    refine ⟨iff_of_true (joinRequest_reject_eq s c r un hex) hcoll, ?_⟩
    intro hno
    exact absurd hcoll hno
  · have hexF : (getUsersInRoom s.userSocketMap r).any
        (fun u => u.username == un) = false := by
      simp only [Bool.not_eq_true] at hex
      exact hex
    have hadm := joinRequest_admit_eq s c r un hexF
    constructor
    · refine iff_of_false ?_ ?_
      · intro heq
        have hlen := congrArg (fun x => x.2.length) (heq.symm.trans hadm)
        simp at hlen
      · intro hcoll
        rw [← joinRequest_exists_username_iff] at hcoll
        rw [hcoll] at hexF
        simp at hexF
    · intro _
      rw [hadm]

/-- Witness for the amended C2 at the concrete OFFLINE-alice room. -/
theorem join_collision_any_status_amended_witness :
    (∃ u ∈ getUsersInRoom offlineAliceState.userSocketMap "r",
      u.username = "alice") ∧
    handle offlineAliceState "s2" (.joinRequest "r" "alice") =
      (offlineAliceState,
       [{ recipients := ["s2"], event := .usernameExists }]) :=
  ⟨by decide,
   (join_collision_any_status_amended offlineAliceState "s2" "r" "alice").1.mpr
     (by decide)⟩

/-! ### C7: the relay and self-echo -/

/-- C7 counterexample: the SYNC_FILE_STRUCTURE handler relays the sender's
own payload back to the sender itself as the same event kind — the sending
connection IS the sole recipient, and the emission is neither a
JOIN_ACCEPTED nor a rejection reply. -/
theorem no_self_echo_counterexample :
    (handle sampleStateAB "a" (.syncFileStructure "fs" "of" "af")).2 =
      [{ recipients := ["a"],
         event := .syncFileStructure "fs" "of" "af" }] ∧
    "a" ∈ (Emission.recipients
      { recipients := ["a"], event := .syncFileStructure "fs" "of" "af" }) ∧
    OutEvent.syncFileStructure "fs" "of" "af" ≠ OutEvent.usernameExists ∧
    ∀ u us, OutEvent.syncFileStructure "fs" "of" "af" ≠
      OutEvent.joinAccepted u us :=
  ⟨by decide, by decide, fun h => OutEvent.noConfusion h,
   fun u us h => OutEvent.noConfusion h⟩

/-- C7 amended: for every inbound event from connection `c`, every emission
whose event is not one of the direct replies to `c` (JOIN_ACCEPTED,
USERNAME_EXISTS) and not a SYNC_FILE_STRUCTURE echo never lists `c` among
its recipients; the SYNC_FILE_STRUCTURE handler, by contrast, sends the
sender's own payload back to the sender alone. -/
theorem no_self_echo_amended (s : ServerState) (c : String) (e : InEvent)
    (em : Emission) (hmem : em ∈ (handle s c e).2)
    (h1 : em.event ≠ OutEvent.usernameExists)
    (h2 : ∀ u us, em.event ≠ OutEvent.joinAccepted u us)
    (h3 : ∀ a b d, em.event ≠ OutEvent.syncFileStructure a b d) :
    c ∉ em.recipients := by
  cases e with
  | joinRequest roomId username =>
    by_cases hex : (getUsersInRoom s.userSocketMap roomId).any
        (fun u => u.username == username) = true
    · rw [joinRequest_reject_eq s c roomId username hex] at hmem
      simp only [List.mem_singleton] at hmem
      subst hmem
      exact absurd rfl h1
    · have hexF : (getUsersInRoom s.userSocketMap roomId).any
          (fun u => u.username == username) = false := by
        simp only [Bool.not_eq_true] at hex
        exact hex
      rw [joinRequest_admit_eq s c roomId username hexF] at hmem
      simp only [List.mem_cons, List.mem_singleton, List.not_mem_nil,
        or_false] at hmem
      rcases hmem with hmem | hmem
      · subst hmem
        exact self_not_mem_broadcastTo _ c roomId
      · subst hmem
        exact absurd rfl (h2 _ _)
  | disconnecting =>
    simp only [handle] at hmem
    split at hmem
    · simp at hmem
    · simp only [List.mem_singleton] at hmem
      subst hmem
      exact self_not_mem_broadcastTo _ c _
  | signalIceCandidate candidate roomId claimed =>
    simp only [handle, List.mem_singleton] at hmem
    subst hmem
    exact self_not_mem_broadcastTo _ c _
  | signalOffer offer roomId claimed =>
    simp only [handle, List.mem_singleton] at hmem
    subst hmem
    exact self_not_mem_broadcastTo _ c _
  | signalAnswer answer roomId claimed =>
    simp only [handle, List.mem_singleton] at hmem
    subst hmem
    exact self_not_mem_broadcastTo _ c _
  | syncFileStructure a b d =>
    simp only [handle, List.mem_singleton] at hmem
    subst hmem
    exact absurd rfl (h3 a b d)
  | directoryCreated x y =>
    simp only [handle] at hmem
    split at hmem
    · simp at hmem
    · simp only [List.mem_singleton] at hmem
      subst hmem
      exact self_not_mem_broadcastTo _ c _
  | directoryUpdated x y =>
    simp only [handle] at hmem
    split at hmem
    · simp at hmem
    · simp only [List.mem_singleton] at hmem
      subst hmem
      exact self_not_mem_broadcastTo _ c _
  | directoryRenamed x y =>
    simp only [handle] at hmem
    split at hmem
    · simp at hmem
    · simp only [List.mem_singleton] at hmem
      subst hmem
      exact self_not_mem_broadcastTo _ c _
  | directoryDeleted x =>
    simp only [handle] at hmem
    split at hmem
    · simp at hmem
    · simp only [List.mem_singleton] at hmem
      subst hmem
      exact self_not_mem_broadcastTo _ c _
  | fileCreated x y =>
    simp only [handle] at hmem
    split at hmem
    · simp at hmem
    · simp only [List.mem_singleton] at hmem
      subst hmem
      exact self_not_mem_broadcastTo _ c _
  | fileUpdated x y =>
    simp only [handle] at hmem
    split at hmem
    · simp at hmem
    · simp only [List.mem_singleton] at hmem
      subst hmem
      exact self_not_mem_broadcastTo _ c _
  | fileRenamed x y =>
    simp only [handle] at hmem
    split at hmem
    · simp at hmem
    · simp only [List.mem_singleton] at hmem
      subst hmem
      exact self_not_mem_broadcastTo _ c _
  | fileDeleted x =>
    simp only [handle] at hmem
    split at hmem
    · simp at hmem
    · simp only [List.mem_singleton] at hmem
      subst hmem
      exact self_not_mem_broadcastTo _ c _
  | userOffline sid =>
    simp only [handle] at hmem
    split at hmem
    · simp at hmem
    · simp only [List.mem_singleton] at hmem
      subst hmem
      exact self_not_mem_broadcastTo _ c _
  | userOnline sid =>
    simp only [handle] at hmem
    split at hmem
    · simp at hmem
    · simp only [List.mem_singleton] at hmem
      subst hmem
      exact self_not_mem_broadcastTo _ c _
  | sendMessage msg =>
    simp only [handle] at hmem
    split at hmem
    · simp at hmem
    · simp only [List.mem_singleton] at hmem
      subst hmem
      exact self_not_mem_broadcastTo _ c _
  | typingStart pos =>
    simp only [handle] at hmem
    split at hmem
    · simp at hmem
    · simp only [List.mem_singleton] at hmem
      subst hmem
      exact self_not_mem_broadcastTo _ c _
  | typingPause =>
    simp only [handle] at hmem
    split at hmem
    · simp at hmem
    · simp only [List.mem_singleton] at hmem
      subst hmem
      exact self_not_mem_broadcastTo _ c _
  | requestDrawing =>
    simp only [handle] at hmem
    split at hmem
    · simp at hmem
    · simp only [List.mem_singleton] at hmem
      subst hmem
      exact self_not_mem_broadcastTo _ c _
  | syncDrawing dat sid =>
    simp only [handle, List.mem_singleton] at hmem
    subst hmem
    exact self_not_mem_broadcastToSocket c sid

/-- Witness for the amended C7 at a concrete chat relay. -/
theorem no_self_echo_amended_witness :
    ({ recipients := ["b"], event := OutEvent.receiveMessage "hi" } ∈
      (handle sampleStateAB "a" (.sendMessage "hi")).2) ∧
    "a" ∉ (Emission.recipients
      { recipients := ["b"], event := OutEvent.receiveMessage "hi" }) :=
  ⟨by decide,
   no_self_echo_amended sampleStateAB "a" (.sendMessage "hi")
     { recipients := ["b"], event := OutEvent.receiveMessage "hi" }
     (by decide) (fun h => OutEvent.noConfusion h)
     (fun u us h => OutEvent.noConfusion h)
     (fun a b d h => OutEvent.noConfusion h)⟩

/-! ### C9: status toggles target the payload's socketId -/

/-- Record-wise frame relation for the status toggles: every record keeps
its identity and every non-status field; only records whose `socketId`
equals the payload's value have their status set to `st`, all others keep
their old status. -/
def statusFrameOnly (psid : String) (st : UserStatus) (m m' : List User) :
    Prop :=
  List.Forall₂ (fun u u' =>
    u'.username = u.username ∧ u'.roomId = u.roomId ∧
    u'.cursorPosition = u.cursorPosition ∧ u'.typing = u.typing ∧
    u'.socketId = u.socketId ∧ u'.currentFile = u.currentFile ∧
    (u.socketId = psid → u'.status = st) ∧
    (u.socketId ≠ psid → u'.status = u.status)) m m'

/-- The status-update map of the USER_OFFLINE / USER_ONLINE handlers
satisfies the frame relation. -/
theorem statusFrameOnly_map (psid : String) (st : UserStatus) (m : List User) :
    statusFrameOnly psid st m
      (m.map (fun u => if u.socketId == psid then { u with status := st }
        else u)) := by
  rw [statusFrameOnly, List.forall₂_map_right_iff, List.forall₂_same]
  intro u _
  by_cases h : (u.socketId == psid) = true
  · rw [if_pos h]
    have hp : u.socketId = psid := by simpa using h
    exact ⟨rfl, rfl, rfl, rfl, rfl, rfl, fun _ => rfl,
      fun hne => absurd hp hne⟩
  · rw [if_neg h]
    refine ⟨rfl, rfl, rfl, rfl, rfl, rfl, ?_, fun _ => rfl⟩
    intro hp
    exact absurd (by simp [hp]) h

/-- C9: for every USER_OFFLINE (resp. USER_ONLINE) event, the records whose
status is mutated are those whose socketId equals the `socketId` field of
the payload — the sender `c` and the target `psid` are independent — and
only the status field of matching records changes; room memberships are
untouched; when the (updated) registry has a record for the target, the
single broadcast goes to the target's room and never includes the sending
connection, and when it has none, nothing is emitted. -/
theorem status_toggle_targets_payload (s : ServerState) (c psid : String) :
    (∀ s1 ems, handle s c (.userOffline psid) = (s1, ems) →
      statusFrameOnly psid UserStatus.offline s.userSocketMap
        s1.userSocketMap ∧
      s1.joined = s.joined ∧
      (getRoomId s1.userSocketMap psid = none → ems = []) ∧
      (∀ rm, getRoomId s1.userSocketMap psid = some rm →
        ems = [{ recipients := broadcastTo s1 c rm,
                 event := OutEvent.userOffline psid }] ∧
        c ∉ broadcastTo s1 c rm)) ∧
    (∀ s1 ems, handle s c (.userOnline psid) = (s1, ems) →
      statusFrameOnly psid UserStatus.online s.userSocketMap
        s1.userSocketMap ∧
      s1.joined = s.joined ∧
      (getRoomId s1.userSocketMap psid = none → ems = []) ∧
      (∀ rm, getRoomId s1.userSocketMap psid = some rm →
        ems = [{ recipients := broadcastTo s1 c rm,
                 event := OutEvent.userOnline psid }] ∧
        c ∉ broadcastTo s1 c rm)) := by
  constructor <;>
  · intro s1 ems heq
    simp only [handle] at heq
    split at heq <;> rename_i hroom <;>
      injection heq with h1 h2 <;> subst h1 <;> subst h2
    · refine ⟨statusFrameOnly_map _ _ _, rfl, fun _ => rfl, ?_⟩
      intro rm hrm
      rw [hroom] at hrm
      cases hrm
    · refine ⟨statusFrameOnly_map _ _ _, rfl, ?_, ?_⟩
      · intro hnone
        rw [hroom] at hnone
        cases hnone
      · intro rm hrm
        rw [hroom] at hrm
        injection hrm with h3
        subst h3
        exact ⟨rfl, self_not_mem_broadcastTo _ c _⟩

/-- Witness for C9 at a concrete toggle: `b` sends USER_OFFLINE targeting
`a`; `a`'s record goes offline and the notice reaches `a` but not `b`. -/
theorem status_toggle_targets_payload_witness :
    (handle sampleStateAB "b" (.userOffline "a") =
      ({ userSocketMap :=
           [{ sampleA with status := UserStatus.offline }, sampleB],
         joined := sampleStateAB.joined },
       [{ recipients := ["a"], event := OutEvent.userOffline "a" }])) ∧
    statusFrameOnly "a" UserStatus.offline sampleStateAB.userSocketMap
      [{ sampleA with status := UserStatus.offline }, sampleB] ∧
    "b" ∉ (["a"] : List String) := by
  have h := (status_toggle_targets_payload sampleStateAB "b" "a").1
    { userSocketMap := [{ sampleA with status := UserStatus.offline }, sampleB],
      joined := sampleStateAB.joined }
    [{ recipients := ["a"], event := OutEvent.userOffline "a" }] (by decide)
  refine ⟨by decide, h.1, ?_⟩
  have h4 := (h.2.2.2 "r" (by decide)).2
  exact h4

/-! ### C4: connectionId uniqueness in the registry -/

/-- All registry records carry pairwise-distinct socket ids. -/
def distinctSockets (m : List User) : Prop :=
  m.Pairwise (fun u v => u.socketId ≠ v.socketId)

instance (m : List User) : Decidable (distinctSockets m) := by
  unfold distinctSockets
  infer_instance

/-- Guard on a trace: every join request is sent by a connection that has
no registry record at that point (the handler itself never checks this). -/
def freshJoins : ServerState → List (String × InEvent) → Bool
  | _, [] => true
  | s, (c, e) :: rest =>
    (match e with
     | .joinRequest _ _ => (getUserBySocketId s.userSocketMap c).isNone
     | _ => true)
    && freshJoins (handle s c e).1 rest

/-- Registry records surviving a map that keeps socket ids stay pairwise
distinct. -/
theorem distinctSockets_map_preserve (m : List User) (f : User → User)
    (hf : ∀ u, (f u).socketId = u.socketId) (hd : distinctSockets m) :
    distinctSockets (m.map f) := by
  rw [distinctSockets, List.pairwise_map]
  exact hd.imp (fun hab => by rw [hf, hf]; exact hab)

/-- One relay step keeps socket ids pairwise distinct, provided a join
request only comes from a connection with no current record. -/
theorem distinctSockets_step (s : ServerState) (c : String) (e : InEvent)
    (hd : distinctSockets s.userSocketMap)
    (hj : ∀ r un, e = .joinRequest r un →
      (getUserBySocketId s.userSocketMap c).isNone = true) :
    distinctSockets (handle s c e).1.userSocketMap := by
  cases e with
  | joinRequest r un =>
    have hnone : getUserBySocketId s.userSocketMap c = none := by
      have h := hj r un rfl
      rwa [Option.isNone_iff_eq_none] at h
    by_cases hex : (getUsersInRoom s.userSocketMap r).any
        (fun u => u.username == un) = true
    · rw [joinRequest_reject_eq s c r un hex]
      exact hd
    · have hexF : (getUsersInRoom s.userSocketMap r).any
          (fun u => u.username == un) = false := by
        simp only [Bool.not_eq_true] at hex
        exact hex
      rw [joinRequest_admit_eq s c r un hexF]
      show distinctSockets (s.userSocketMap ++ [newUserRec c r un])
      rw [distinctSockets, List.pairwise_append]
      refine ⟨hd, List.pairwise_singleton _ _, ?_⟩
      intro a ha b hb
      simp only [List.mem_singleton] at hb
      subst hb
      have hnone' : s.userSocketMap.find? (fun u => u.socketId == c) = none :=
        hnone
      have h := List.find?_eq_none.mp hnone' a ha
      simp only [newUserRec]
      intro hcontra
      exact h (by simp [hcontra])
  | disconnecting =>
    simp only [handle]
    split
    · exact hd
    · exact hd.sublist (List.filter_sublist _)
  | signalIceCandidate x y z => exact hd
  | signalOffer x y z => exact hd
  | signalAnswer x y z => exact hd
  | syncFileStructure x y z => exact hd
  | directoryCreated x y =>
    simp only [handle]
    split
    · exact hd
    · exact hd
  | directoryUpdated x y =>
    simp only [handle]
    split
    · exact hd
    · exact hd
  | directoryRenamed x y =>
    simp only [handle]
    split
    · exact hd
    · exact hd
  | directoryDeleted x =>
    simp only [handle]
    split
    · exact hd
    · exact hd
  | fileCreated x y =>
    simp only [handle]
    split
    · exact hd
    · exact hd
  | fileUpdated x y =>
    simp only [handle]
    split
    · exact hd
    · exact hd
  | fileRenamed x y =>
    simp only [handle]
    split
    · exact hd
    · exact hd
  | fileDeleted x =>
    simp only [handle]
    split
    · exact hd
    · exact hd
  | userOffline sid =>
    simp only [handle]
    split <;>
    · refine distinctSockets_map_preserve _ _ ?_ hd
      intro u
      by_cases h : (u.socketId == sid) = true
      · rw [if_pos h]
      · rw [if_neg h]
  | userOnline sid =>
    simp only [handle]
    split <;>
    · refine distinctSockets_map_preserve _ _ ?_ hd
      intro u
      by_cases h : (u.socketId == sid) = true
      · rw [if_pos h]
      · rw [if_neg h]
  | sendMessage msg =>
    simp only [handle]
    split
    · exact hd
    · exact hd
  | typingStart pos =>
    simp only [handle]
    split <;>
    · refine distinctSockets_map_preserve _ _ ?_ hd
      intro u
      by_cases h : (u.socketId == c) = true
      · rw [if_pos h]
      · rw [if_neg h]
  | typingPause =>
    simp only [handle]
    split <;>
    · refine distinctSockets_map_preserve _ _ ?_ hd
      intro u
      by_cases h : (u.socketId == c) = true
      · rw [if_pos h]
      · rw [if_neg h]
  | requestDrawing =>
    simp only [handle]
    split
    · exact hd
    · exact hd
  | syncDrawing x y => exact hd

/-- C4 counterexample: a connection that joins the same room twice under two
fresh usernames reaches a registry holding TWO records with its
connectionId — the registry is a list the join handler appends to, not a
map keyed by connectionId. -/
theorem connectionId_unique_counterexample :
    ((steps initialState
        [("c1", .joinRequest "r" "x"),
         ("c1", .joinRequest "r" "y")]).userSocketMap.filter
      (fun u => u.socketId == "c1")).length = 2 ∧
    ¬ distinctSockets
      (steps initialState
        [("c1", .joinRequest "r" "x"),
         ("c1", .joinRequest "r" "y")]).userSocketMap := by
  refine ⟨by decide, by decide⟩

/-- C4 amended: along every trace in which each join request is issued by a
connection with no current registry record (`freshJoins`), all reachable
registries keep pairwise-distinct connectionIds; without that guard a
second admitted join of an already-registered connection appends a second
record with the same connectionId. -/
theorem registry_socketId_unique_amended (s : ServerState)
    (tr : List (String × InEvent))
    (hd : distinctSockets s.userSocketMap)
    (hf : freshJoins s tr = true) :
    distinctSockets (steps s tr).userSocketMap := by
  induction tr generalizing s with
  | nil => exact hd
  | cons p rest ih =>
    obtain ⟨c, e⟩ := p
    simp only [freshJoins, Bool.and_eq_true] at hf
    rw [steps]
    refine ih _ (distinctSockets_step s c e hd ?_) hf.2
    intro r un he
    subst he
    exact hf.1

/-- Witness for the amended C4 on a concrete fresh-join trace. -/
theorem registry_socketId_unique_amended_witness :
    distinctSockets initialState.userSocketMap ∧
    freshJoins initialState
      [("c1", .joinRequest "r" "x"), ("c2", .joinRequest "r" "y"),
       ("c1", .disconnecting)] = true ∧
    distinctSockets
      (steps initialState
        [("c1", .joinRequest "r" "x"), ("c2", .joinRequest "r" "y"),
         ("c1", .disconnecting)]).userSocketMap :=
  ⟨by decide, by decide,
   registry_socketId_unique_amended initialState
     [("c1", .joinRequest "r" "x"), ("c2", .joinRequest "r" "y"),
      ("c1", .disconnecting)] (by decide) (by decide)⟩

/-! ### C8: join-then-leave leaves no room residue -/

/-- A trace of join requests for room `r` by the given `(connection,
username)` pairs. -/
def joinEvents (r : String) (ps : List (String × String)) :
    List (String × InEvent) :=
  ps.map (fun p => (p.1, InEvent.joinRequest r p.2))

/-- A trace of transport-level disconnects of the given connections. -/
def disconnectEvents (cs : List String) : List (String × InEvent) :=
  cs.map (fun c => (c, InEvent.disconnecting))

/-- The registry effect of one disconnect is always a filter on socketId
(the no-record case removes nothing). -/
theorem disconnect_registry_eq (s : ServerState) (c : String) :
    (handle s c .disconnecting).1.userSocketMap =
      s.userSocketMap.filter (fun u => u.socketId != c) := by
  simp only [handle]
  split
  · rename_i hnone
    symm
    rw [List.filter_eq_self]
    intro a ha
    have hnone' : s.userSocketMap.find? (fun u => u.socketId == c) = none :=
      hnone
    have h := List.find?_eq_none.mp hnone' a ha
    simpa using h
  · rfl

/-- Any record surviving a trace of disconnects was already present and
belongs to none of the disconnected connections. -/
theorem mem_steps_disconnects (cs : List String) (s : ServerState) (u : User)
    (hu : u ∈ (steps s (disconnectEvents cs)).userSocketMap) :
    u ∈ s.userSocketMap ∧ ∀ c ∈ cs, u.socketId ≠ c := by
  induction cs generalizing s with
  | nil => exact ⟨hu, by simp⟩
  | cons c cs ih =>
    simp only [disconnectEvents, List.map_cons] at hu
    rw [steps] at hu
    obtain ⟨h1, h2⟩ := ih _ hu
    rw [disconnect_registry_eq, List.mem_filter] at h1
    obtain ⟨hmem, hne⟩ := h1
    refine ⟨hmem, ?_⟩
    intro x hx
    rcases List.mem_cons.mp hx with rfl | hx
    · simpa using hne
    · exact h2 x hx

/-- Any record present after a trace of joins was already present or
belongs to one of the joining connections. -/
theorem mem_steps_joins (ps : List (String × String)) (r : String)
    (s : ServerState) (u : User)
    (hu : u ∈ (steps s (joinEvents r ps)).userSocketMap) :
    u ∈ s.userSocketMap ∨ u.socketId ∈ ps.map Prod.fst := by
  induction ps generalizing s with
  | nil => exact Or.inl hu
  | cons p ps ih =>
    simp only [joinEvents, List.map_cons] at hu
    rw [steps] at hu
    rcases ih _ hu with h1 | h1
    · by_cases hex : (getUsersInRoom s.userSocketMap r).any
          (fun v => v.username == p.2) = true
      · rw [joinRequest_reject_eq s p.1 r p.2 hex] at h1
        exact Or.inl h1
      · have hexF : (getUsersInRoom s.userSocketMap r).any
            (fun v => v.username == p.2) = false := by
          simp only [Bool.not_eq_true] at hex
          exact hex
        rw [joinRequest_admit_eq s p.1 r p.2 hexF] at h1
        have h1' : u ∈ s.userSocketMap ++ [newUserRec p.1 r p.2] := h1
        rcases List.mem_append.mp h1' with h2 | h2
        · exact Or.inl h2
        · simp only [List.mem_singleton] at h2
          subst h2
          right
          simp [newUserRec]
    · right
      simp only [List.map_cons, List.mem_cons]
      exact Or.inr h1

/-- C8: starting from any state whose registry has no record for room `r`,
after admitting any number of connections into `r` and then disconnecting
every one of them (in any order, with arbitrary extra disconnects allowed),
the registry holds no record referencing `r` — membership is back to zero;
moreover a disconnect of a connection without a record is a strict no-op
(same state, nothing emitted), so repeated removal is harmless. -/
theorem join_leave_no_leak (s : ServerState) (r : String)
    (ps : List (String × String)) (ds : List String)
    (h0 : ∀ u ∈ s.userSocketMap, u.roomId ≠ r)
    (hcover : ∀ p ∈ ps, p.1 ∈ ds) :
    getUsersInRoom
      (steps (steps s (joinEvents r ps))
        (disconnectEvents ds)).userSocketMap r = [] ∧
    (∀ (s2 : ServerState) (c : String),
      getUserBySocketId s2.userSocketMap c = none →
      handle s2 c .disconnecting = (s2, [])) := by
  constructor
  · rw [getUsersInRoom, List.filter_eq_nil_iff]
    intro u hu
    obtain ⟨hmid, hnd⟩ := mem_steps_disconnects ds _ u hu
    rcases mem_steps_joins ps r s u hmid with h1 | h1
    · have := h0 u h1
      simp only [beq_iff_eq]
      exact this
    · exfalso
      rw [List.mem_map] at h1
      obtain ⟨p, hp, hps⟩ := h1
      exact hnd p.1 (hcover p hp) hps.symm
  · intro s2 c h
    simp only [handle, h]

/-- Witness for C8: two joins into room `r`, then both disconnect in the
reverse order; the room is empty afterwards. -/
theorem join_leave_no_leak_witness :
    (∀ u ∈ initialState.userSocketMap, u.roomId ≠ "r") ∧
    (∀ p ∈ [("c1", "x"), ("c2", "y")], Prod.fst p ∈ ["c2", "c1"]) ∧
    (getUsersInRoom
      (steps (steps initialState (joinEvents "r" [("c1", "x"), ("c2", "y")]))
        (disconnectEvents ["c2", "c1"])).userSocketMap "r" = [] ∧
    (∀ (s2 : ServerState) (c : String),
      getUserBySocketId s2.userSocketMap c = none →
      handle s2 c .disconnecting = (s2, []))) :=
  ⟨by decide, by decide,
   join_leave_no_leak initialState "r" [("c1", "x"), ("c2", "y")]
     ["c2", "c1"] (by decide) (by decide)⟩

end CodeSync
